import Mathlib

/-!
Verification of the resilient event-ingestion and outbound-call subsystem of a
Stripe-integrated payment service.

The definitions below are a shallow embedding of the TypeScript sources:

* `supabase/functions/_shared/stripe-retry-utils.ts` — error taxonomy,
  retry configuration, backoff calculator, retry loop, circuit breaker,
  error-to-HTTP-status mapping;
* the Stripe webhook edge function (`serve` callback and its idempotency set
  `processedEvents`);
* `_shared/admin-notifications.ts` — severity filter, dedupe-key rate limiting
  and channel fan-out of the admin escalation pipeline.

JavaScript numbers (timestamps in milliseconds, delays, configuration fields)
are modelled as rationals `ℚ`; `Math.random()`-derived jitter factors and
wall-clock readings are passed in as explicit parameters.  Effectful
operations (the retried outbound call, the per-event-type webhook handlers)
are modelled as functions returning `Except`: `.error` corresponds to a thrown
exception carrying its classified error type.
-/

deriving instance DecidableEq for Except

/-- JavaScript `Math.min` on two numbers (no `NaN` in the model). -/
def mathMin (a b : ℚ) : ℚ := if a ≤ b then a else b

/-- JavaScript `Math.max` on two numbers (no `NaN` in the model). -/
def mathMax (a b : ℚ) : ℚ := if a ≤ b then b else a

/-- JavaScript `Math.pow` restricted to the natural exponents the retry code
uses (`attempt - 1` with `attempt ≥ 1`). -/
def mathPow (b : ℚ) : ℕ → ℚ
  | 0 => 1
  | e + 1 => mathPow b e * b

theorem mathPow_eq_pow (b : ℚ) (e : ℕ) : mathPow b e = b ^ e := by
  induction e with
  | zero => rfl
  | succ e ih => rw [mathPow, pow_succ, ih]

theorem mathMin_eq_min (a b : ℚ) : mathMin a b = min a b := by
  rw [mathMin, min_def]

theorem mathMax_eq_max (a b : ℚ) : mathMax a b = max a b := by
  rw [mathMax, max_def]

/-- Error taxonomy of `stripe-retry-utils.ts` (`enum ErrorType`). -/
inductive ErrorType
  | rate_limit
  | network
  | authentication
  | invalid_request
  | api_error
  | card_error
  | idempotency_error
  | unknown
deriving DecidableEq, Repr

/-- `interface RetryConfig` from `stripe-retry-utils.ts`.  `maxRetries` is a
natural number; delays and the multiplier are JS numbers, modelled as `ℚ`. -/
structure RetryConfig where
  maxRetries : ℕ
  baseDelay : ℚ
  maxDelay : ℚ
  backoffMultiplier : ℚ
  jitter : Bool
deriving DecidableEq, Repr

/-- `DEFAULT_RETRY_CONFIG` from `stripe-retry-utils.ts`. -/
def DEFAULT_RETRY_CONFIG : RetryConfig :=
  { maxRetries := 3
    baseDelay := 1000
    maxDelay := 30000
    backoffMultiplier := 2
    jitter := true }

/-- `RATE_LIMIT_RETRY_CONFIG` from `stripe-retry-utils.ts`. -/
def RATE_LIMIT_RETRY_CONFIG : RetryConfig :=
  { maxRetries := 5
    baseDelay := 2000
    maxDelay := 60000
    backoffMultiplier := 2
    jitter := true }

/-- `isRetryableError` from `stripe-retry-utils.ts`: the fixed retryability
table over the error taxonomy. -/
def isRetryableError : ErrorType → Bool
  | .rate_limit => true
  | .network => true
  | .api_error => true
  | .authentication => false
  | .invalid_request => false
  | .card_error => false
  | .idempotency_error => false
  | .unknown => false

/-- `calculateDelay` from `stripe-retry-utils.ts`.

`rateLimitResetTime` is the optional provider hint in seconds (the parsed
`x-ratelimit-reset-after` header); `now` is `Date.now()` in milliseconds and
`jitterFactor` stands for the sampled `0.5 + Math.random() * 0.5`.  The JS
guard `if (rateLimitResetTime)` is truthiness: a hint of `0` is treated as
absent. -/
def calculateDelay (attempt : ℕ) (config : RetryConfig)
    (rateLimitResetTime : Option ℚ) (now : ℚ) (jitterFactor : ℚ) : ℚ :=
  let base := config.baseDelay * mathPow config.backoffMultiplier (attempt - 1)
  let jittered := if config.jitter then base * jitterFactor else base
  let expBackoff := mathMin jittered config.maxDelay
  match rateLimitResetTime with
  | some t =>
      if t = 0 then expBackoff
      else
        let resetDelay := t * 1000 - now
        if 0 < resetDelay then mathMin (resetDelay + 1000) config.maxDelay
        else expBackoff
  | none => expBackoff

/-- A failure raised by an outbound Stripe call, already run through
`classifyError`: it carries its classified `ErrorType` and, for rate-limit
errors, the optional parsed `x-ratelimit-reset-after` header. -/
structure StripeFailure where
  errType : ErrorType
  resetAfter : Option ℚ
deriving DecidableEq, Repr

/-- Observable trace of one `withRetry` run: the returned value or the
re-thrown terminal failure, the number of times the operation was invoked,
and the backoff delays slept between attempts. -/
structure RetryTrace (α : Type) where
  result : Except StripeFailure α
  attempts : ℕ
  sleeps : List ℚ
deriving DecidableEq

/-- Body of the `for` loop of `withRetry` (`stripe-retry-utils.ts`).

`op n` is the outcome of the n-th invocation of `operation` (attempts are
numbered from 1); `now n` and `jf n` are the wall clock and the jitter sample
at attempt `n`.  `fuel` counts the loop iterations still allowed after the
current one and is `config.maxRetries` at entry, so the `fuel = 0` branch is
unreachable: the `attempt > maxRetries` break always fires first. -/
def withRetryGo (op : ℕ → Except StripeFailure α) (config : RetryConfig)
    (now : ℕ → ℚ) (jf : ℕ → ℚ) : (attempt : ℕ) → (fuel : ℕ) → RetryTrace α
  | attempt, fuel =>
    match op attempt with
    | .ok v => ⟨.ok v, attempt, []⟩
    | .error e =>
      if config.maxRetries < attempt ∨ isRetryableError e.errType = false then
        ⟨.error e, attempt, []⟩
      else
        match fuel with
        | 0 => ⟨.error e, attempt, []⟩
        | fuel + 1 =>
          let hint := if e.errType = ErrorType.rate_limit then e.resetAfter else none
          let retryConfig :=
            if e.errType = ErrorType.rate_limit then RATE_LIMIT_RETRY_CONFIG else config
          let d := calculateDelay attempt retryConfig hint (now attempt) (jf attempt)
          let rest := withRetryGo op config now jf (attempt + 1) fuel
          ⟨rest.result, rest.attempts, d :: rest.sleeps⟩

/-- `withRetry` from `stripe-retry-utils.ts`: run `op` for attempts
`1 .. config.maxRetries + 1`, stopping at the first success, at a
non-retryable failure, or when the attempt budget is spent. -/
def withRetry (op : ℕ → Except StripeFailure α) (config : RetryConfig)
    (now : ℕ → ℚ) (jf : ℕ → ℚ) : RetryTrace α :=
  withRetryGo op config now jf 1 config.maxRetries

/-- `createErrorResponse` (`stripe-retry-utils.ts`): the HTTP status code the
standardized error response maps each error class to. -/
def createErrorStatusCode : ErrorType → ℕ
  | .authentication => 401
  | .invalid_request => 400
  | .card_error => 402
  | .rate_limit => 429
  | .api_error => 502
  | .network => 503
  | _ => 500

/-- Constructor arguments of `class CircuitBreaker` (`stripe-retry-utils.ts`):
`failureThreshold` (default 5) and `resetTimeout` in milliseconds
(default 60000). -/
structure CBConfig where
  failureThreshold : ℕ
  resetTimeout : ℚ
deriving DecidableEq

/-- The `state` field of `CircuitBreaker`; the source uses the strings
`'closed' | 'open' | 'half-open'` (`open` is a Lean keyword, hence `opened`). -/
inductive CBStatus
  | closed
  | opened
  | halfOpen
deriving DecidableEq, Repr

/-- Mutable fields of a `CircuitBreaker` instance: `failures`,
`lastFailureTime` and `state`. -/
structure CBState where
  failures : ℕ
  lastFailureTime : ℚ
  status : CBStatus
deriving DecidableEq

/-- Initial field values of a freshly constructed `CircuitBreaker`
(`failures = 0`, `lastFailureTime = 0`, `state = 'closed'`). -/
def cbInitState : CBState :=
  { failures := 0, lastFailureTime := 0, status := .closed }

/-- Outcome of one `CircuitBreaker.execute` call: `rejected` models the
`throw new Error('Circuit breaker is open ...')` path, where the wrapped
operation is NOT invoked; `completed r` means the operation was invoked and
its own outcome `r` was returned or re-thrown. -/
inductive CBResult (ε α : Type)
  | rejected
  | completed (r : Except ε α)
deriving DecidableEq

/-- `onSuccess`/`onFailure` bookkeeping of `CircuitBreaker.execute` once the
wrapped operation has run with outcome `op` at wall-clock time `now`. -/
def CircuitBreaker.settle (cfg : CBConfig) (s : CBState) (now : ℚ)
    (op : Except ε α) : CBResult ε α × CBState :=
  match op with
  | .ok v =>
      (.completed (.ok v),
        { failures := 0, lastFailureTime := s.lastFailureTime, status := .closed })
  | .error e =>
      (.completed (.error e),
        { failures := s.failures + 1
          lastFailureTime := now
          status := if cfg.failureThreshold ≤ s.failures + 1 then .opened else s.status })

/-- `CircuitBreaker.execute` (`stripe-retry-utils.ts`).  `op` is the outcome
the wrapped operation would produce if invoked; `now` is `Date.now()` (the
source reads the clock twice within one call, microseconds apart; the model
uses a single reading). -/
def CircuitBreaker.execute (cfg : CBConfig) (s : CBState) (now : ℚ)
    (op : Except ε α) : CBResult ε α × CBState :=
  if s.status = .opened then
    if cfg.resetTimeout < now - s.lastFailureTime then
      CircuitBreaker.settle cfg { s with status := .halfOpen } now op
    else
      (.rejected, s)
  else
    CircuitBreaker.settle cfg s now op

/-- One call arriving at a circuit breaker: the wall-clock time of the call
and whether the wrapped operation, if invoked, fails. -/
structure CBCall where
  now : ℚ
  fails : Bool
deriving DecidableEq

/-- Apply one `CBCall` to a breaker state (the call result is discarded). -/
def cbStep (cfg : CBConfig) (s : CBState) (c : CBCall) : CBState :=
  (CircuitBreaker.execute cfg s c.now
    (if c.fails then (.error () : Except Unit Unit) else .ok ())).2

/-- Run a sequence of calls through a circuit breaker. -/
def cbRun (cfg : CBConfig) (s : CBState) : List CBCall → CBState
  | [] => s
  | c :: cs => cbRun cfg (cbStep cfg s c) cs

/-- Breaker states reachable from a freshly constructed `CircuitBreaker` by
some sequence of calls. -/
def CBReachable (cfg : CBConfig) (s : CBState) : Prop :=
  ∃ calls : List CBCall, cbRun cfg cbInitState calls = s

/-- The retry loop as claimed: identical to `withRetry` except that every
attempt is run THROUGH the circuit breaker (a rejected call surfaces as the
thrown circuit-open `Error`, which `classifyError` maps to `unknown`).  This
definition follows the claim wording, not the source — `withRetry` in
`stripe-retry-utils.ts` invokes the operation directly — and exists to be
compared against `withRetry`. -/
def withRetryThroughBreakerGo (op : ℕ → Except StripeFailure α) (config : RetryConfig)
    (cbCfg : CBConfig) (now : ℕ → ℚ) (jf : ℕ → ℚ) :
    (attempt : ℕ) → (fuel : ℕ) → (s : CBState) → Except StripeFailure α × CBState × ℕ
  | attempt, fuel, s =>
    let stepped := CircuitBreaker.execute cbCfg s (now attempt) (op attempt)
    let outcome : Except StripeFailure α :=
      match stepped.1 with
      | .rejected => .error ⟨ErrorType.unknown, none⟩
      | .completed r => r
    match outcome with
    | .ok v => (.ok v, stepped.2, attempt)
    | .error e =>
      if config.maxRetries < attempt ∨ isRetryableError e.errType = false then
        (.error e, stepped.2, attempt)
      else
        match fuel with
        | 0 => (.error e, stepped.2, attempt)
        | fuel + 1 =>
          withRetryThroughBreakerGo op config cbCfg now jf (attempt + 1) fuel stepped.2

/-- Entry point of the claimed breaker-composed retry loop. -/
def withRetryThroughBreaker (op : ℕ → Except StripeFailure α) (config : RetryConfig)
    (cbCfg : CBConfig) (now : ℕ → ℚ) (jf : ℕ → ℚ) :
    Except StripeFailure α × CBState × ℕ :=
  withRetryThroughBreakerGo op config cbCfg now jf 1 config.maxRetries cbInitState

/-- HTTP method of an inbound request, as far as the webhook `serve` callback
distinguishes it. -/
inductive HttpMethod
  | options
  | post
  | otherMethod
deriving DecidableEq, Repr

/-- The two fields of a verified `Stripe.Event` the webhook dispatcher
reads: `event.id` and `event.type`. -/
structure StripeEvent where
  id : String
  type : String
deriving DecidableEq, Repr

/-- An inbound webhook request, reduced to the facts the `serve` callback
branches on: the method, whether the `stripe-signature` header is present,
and the outcome of `stripe.webhooks.constructEventAsync` (`some e` iff
signature verification succeeds and yields event `e`). -/
structure WebhookRequest where
  method : HttpMethod
  hasSignature : Bool
  verifiedEvent : Option StripeEvent
deriving DecidableEq, Repr

/-- Response bodies the webhook endpoint can produce.  `ack` is the JSON
`{received, processed, eventId, eventType}`; `errorBody c` is the
`createErrorResponse` body for an error classified as `c`. -/
inductive WebhookBody
  | corsOk
  | methodNotAllowed
  | missingSignature
  | notConfigured
  | invalidSignature
  | ack (received : Bool) (processed : Bool) (eventId : String) (eventType : String)
  | errorBody (errType : ErrorType)
deriving DecidableEq, Repr

/-- An HTTP response of the webhook endpoint: status code and body. -/
structure WebhookResponse where
  status : ℕ
  body : WebhookBody
deriving DecidableEq, Repr

/-- Module-level mutable state of the webhook function: the idempotency set
`processedEvents` (a `Set<string>`, modelled as a duplicate-free list) and the
`retryAttempts` map. -/
structure WebhookState where
  processedEvents : List String
  retryAttempts : List (String × ℕ)
deriving DecidableEq, Repr

/-- The webhook state at process start: both collections empty. -/
def webhookInitState : WebhookState :=
  { processedEvents := [], retryAttempts := [] }

/-- `retryAttempts.set(eventId, (retryAttempts.get(eventId) ?? 0) + 1)`. -/
def bumpRetryAttempts (m : List (String × ℕ)) (k : String) : List (String × ℕ) :=
  (k, (m.lookup k).getD 0 + 1) :: m.filter (fun p => p.1 ≠ k)

/-- The event types the webhook `switch` statement dispatches to a handler;
any other type hits the `default` branch and is acknowledged without
processing. -/
def handledEventTypes : List String :=
  ["checkout.session.completed",
   "payment_intent.succeeded",
   "payment_intent.payment_failed",
   "customer.subscription.created",
   "customer.subscription.updated",
   "customer.subscription.deleted",
   "invoice.payment_succeeded",
   "invoice.payment_failed"]

/-- Result of one webhook request: the HTTP response, the updated module
state, and whether a per-event-type handler was invoked. -/
structure ServeResult where
  response : WebhookResponse
  state : WebhookState
  handlerInvoked : Bool
deriving DecidableEq, Repr

/-- The `serve` callback of the Stripe webhook edge function.

`secretConfigured` is whether `STRIPE_WEBHOOK_SECRET` is set; `dispatch e`
is the outcome of the per-event-type handler for `e` — `.ok processed` when
the handler returns normally (the handlers catch their own database errors
and return `false`), `.error c` when processing throws an exception whose
`classifyError` class is `c`.  A thrown exception lands in the `catch` block:
the event id is removed from `processedEvents` — unless `eventId` equals the
sentinel string `'unknown'` — admin notifications are sent (not modelled),
and `createErrorResponse` produces the reply. -/
def serveWebhook (secretConfigured : Bool)
    (dispatch : StripeEvent → Except ErrorType Bool)
    (req : WebhookRequest) (s : WebhookState) : ServeResult :=
  if req.method = .options then ⟨⟨200, .corsOk⟩, s, false⟩
  else if req.method ≠ .post then ⟨⟨405, .methodNotAllowed⟩, s, false⟩
  else if req.hasSignature = false then ⟨⟨400, .missingSignature⟩, s, false⟩
  else if secretConfigured = false then ⟨⟨500, .notConfigured⟩, s, false⟩
  else
    match req.verifiedEvent with
    | none => ⟨⟨400, .invalidSignature⟩, s, false⟩
    | some e =>
      if e.id ∈ s.processedEvents then
        ⟨⟨200, .ack true false e.id e.type⟩, s, false⟩
      else
        let s₁ : WebhookState :=
          { processedEvents := e.id :: s.processedEvents
            retryAttempts := bumpRetryAttempts s.retryAttempts e.id }
        if e.type ∈ handledEventTypes then
          match dispatch e with
          | .ok p => ⟨⟨200, .ack true p e.id e.type⟩, s₁, true⟩
          | .error c =>
            let s₂ : WebhookState :=
              if e.id ≠ "unknown" then
                { s₁ with processedEvents := s₁.processedEvents.erase e.id }
              else s₁
            ⟨⟨createErrorStatusCode c, .errorBody c⟩, s₂, true⟩
        else ⟨⟨200, .ack true false e.id e.type⟩, s₁, false⟩

/-- A well-formed POST delivery of the signed event `e`. -/
def deliveryOf (e : StripeEvent) : WebhookRequest :=
  { method := .post, hasSignature := true, verifiedEvent := some e }

/-- Run a sequence of deliveries of the same signed event `e`, one per
element of `outcomes`; the n-th delivery's handler, if it runs, yields the
n-th outcome.  Returns the per-delivery results in order. -/
def runDeliveries (secretConfigured : Bool) (e : StripeEvent)
    (outcomes : List (Except ErrorType Bool)) (s : WebhookState) : List ServeResult :=
  match outcomes with
  | [] => []
  | o :: rest =>
    let r := serveWebhook secretConfigured (fun _ => o) (deliveryOf e) s
    r :: runDeliveries secretConfigured e rest r.state

/-- `enum NotificationSeverity` from `admin-notifications.ts`. -/
inductive NotificationSeverity
  | low
  | medium
  | high
  | critical
deriving DecidableEq, Repr

/-- The string value of a severity (used inside the dedupe key by the
template literal `${data.severity}`). -/
def NotificationSeverity.str : NotificationSeverity → String
  | .low => "low"
  | .medium => "medium"
  | .high => "high"
  | .critical => "critical"

/-- `enum NotificationChannel` from `admin-notifications.ts`. -/
inductive NotificationChannel
  | email
  | webhook
  | database
  | console
deriving DecidableEq, Repr

/-- The fields of `NotificationData` that the severity filter and the rate
limiter read; an absent optional `errorType` renders as the literal string
`"undefined"` in the template literal, so it is pre-rendered here. -/
structure NotificationData where
  severity : NotificationSeverity
  operation : String
  errorType : String
deriving DecidableEq, Repr

/-- `AdminNotificationConfig` from `admin-notifications.ts` (recipient and
URL fields, unread by the filtering logic, are omitted). -/
structure AdminNotificationConfig where
  channels : List NotificationChannel
  enabledSeverities : List NotificationSeverity
  rateLimitMinutes : Option ℚ
deriving DecidableEq, Repr

/-- `DEFAULT_CONFIG` from `admin-notifications.ts` (named apart to avoid
clashing with the retry default). -/
def ADMIN_DEFAULT_CONFIG : AdminNotificationConfig :=
  { channels := [.database, .console]
    enabledSeverities := [.high, .critical]
    rateLimitMinutes := some 5 }

/-- The module-level `notificationCache : Map<string, number>` mapping a
dedupe key to the timestamp of its last delivered notification.  Modelled as
an association list with unique keys (`cacheSet` removes any previous
binding, mirroring `Map.set`). -/
abbrev NotificationCache := List (String × ℚ)

/-- `Map.get`: the first (unique) binding of `k`. -/
def cacheGet : NotificationCache → String → Option ℚ
  | [], _ => none
  | (k1, v) :: c, k => if k = k1 then some v else cacheGet c k

/-- Drop every binding of `k` (a JS `Map` holds at most one). -/
def removeKey : NotificationCache → String → NotificationCache
  | [], _ => []
  | (k1, v) :: c, k => if k1 = k then removeKey c k else (k1, v) :: removeKey c k

/-- `Map.set k v`: replace any existing binding of `k` by `v`. -/
def cacheSet (c : NotificationCache) (k : String) (v : ℚ) : NotificationCache :=
  (k, v) :: removeKey c k

/-- The dedupe key `` `${data.operation}-${data.errorType}-${data.severity}` ``
shared by `isRateLimited` and `updateRateLimitCache`. -/
def dedupeKey (d : NotificationData) : String :=
  d.operation ++ "-" ++ d.errorType ++ "-" ++ d.severity.str

/-- `isRateLimited` from `admin-notifications.ts`.  The guard
`if (!lastSent) return false` is JS truthiness: a cached timestamp of `0`
counts as absent. -/
def isRateLimited (cache : NotificationCache) (d : NotificationData)
    (now : ℚ) (rateLimitMinutes : ℚ) : Bool :=
  match cacheGet cache (dedupeKey d) with
  | none => false
  | some lastSent =>
      if lastSent = 0 then false
      else decide (now - lastSent < rateLimitMinutes * 60 * 1000)

/-- The eviction loop of `updateRateLimitCache`: delete every entry whose
timestamp is strictly older than the cutoff. -/
def pruneOld : NotificationCache → ℚ → NotificationCache
  | [], _ => []
  | (k1, v) :: c, cutoff =>
      if v < cutoff then pruneOld c cutoff else (k1, v) :: pruneOld c cutoff

/-- `updateRateLimitCache` from `admin-notifications.ts`: record the send
time, then — only when the cache holds more than 1000 entries — evict every
entry older than 24 hours (86400000 ms). -/
def updateRateLimitCache (cache : NotificationCache) (d : NotificationData)
    (now : ℚ) : NotificationCache :=
  let c := cacheSet cache (dedupeKey d) now
  if 1000 < c.length then pruneOld c (now - 86400000) else c

/-- Observable outcome of one `sendAdminNotification` call:
`skipped` — severity below the enabled set, nothing happens;
`rateLimited` — suppressed by the dedupe window, logged only, no fan-out;
`delivered cs` — fanned out to the configured channels `cs`. -/
inductive NotifyResult
  | skipped
  | rateLimited
  | delivered (channels : List NotificationChannel)
deriving DecidableEq, Repr

/-- `sendAdminNotification` from `admin-notifications.ts` at wall-clock time
`now`.  The channel sends themselves (`Promise.allSettled`) swallow their own
failures and do not affect control flow; the JS truthiness guard
`if (config.rateLimitMinutes ...)` treats a configured window of `0` as
absent. -/
def sendAdminNotification (d : NotificationData)
    (config : AdminNotificationConfig) (now : ℚ)
    (cache : NotificationCache) : NotifyResult × NotificationCache :=
  if d.severity ∉ config.enabledSeverities then (.skipped, cache)
  else
    match config.rateLimitMinutes with
    | some w =>
        if w = 0 then (.delivered config.channels, cache)
        else if isRateLimited cache d now w then (.rateLimited, cache)
        else (.delivered config.channels, updateRateLimitCache cache d now)
    | none => (.delivered config.channels, cache)

/-- Run a sequence of notifications (each with its arrival time) through
`sendAdminNotification`, starting from `cache`, and collect the times of the
calls that were DELIVERED (fanned out) with dedupe key `k`, in order. -/
def deliveredTimes (config : AdminNotificationConfig) (k : String)
    (cache : NotificationCache) : List (NotificationData × ℚ) → List ℚ
  | [] => []
  | (d, t) :: evs =>
    let r := sendAdminNotification d config t cache
    (match r.1 with
     | .delivered _ => if dedupeKey d = k then [t] else []
     | _ => []) ++ deliveredTimes config k r.2 evs

/-! ## Helper lemmas -/

theorem mathMin_le_right (a b : ℚ) : mathMin a b ≤ b := by
  rw [mathMin_eq_min]; exact min_le_right a b

/-- A named jitter-free retry profile used to instantiate hypotheses. -/
def noJitterConfig : RetryConfig :=
  { maxRetries := 3
    baseDelay := 1000
    maxDelay := 30000
    backoffMultiplier := 2
    jitter := false }

/-- A retry profile with a fractional backoff multiplier (a legal JS number
for the `backoffMultiplier` field). -/
def halfMultiplierConfig : RetryConfig :=
  { maxRetries := 3
    baseDelay := 1000
    maxDelay := 30000
    backoffMultiplier := 1 / 2
    jitter := false }

theorem withRetryGo_attempts_bounds (op : ℕ → Except StripeFailure α)
    (cfg : RetryConfig) (now jf : ℕ → ℚ) :
    ∀ (fuel attempt : ℕ),
      attempt ≤ (withRetryGo op cfg now jf attempt fuel).attempts ∧
        (withRetryGo op cfg now jf attempt fuel).attempts ≤ attempt + fuel := by
  intro fuel
  induction fuel with
  | zero =>
    intro attempt
    rw [withRetryGo]
    rcases h : op attempt with f | v
    · simp only [h]
      split
      · simp
      · simp
    · simp [h]
  | succ fuel ih =>
    intro attempt
    rw [withRetryGo]
    rcases h : op attempt with f | v
    · simp only [h]
      split
      · simp
      · obtain ⟨hb1, hb2⟩ := ih (attempt + 1)
        dsimp only
        omega
    · simp [h]

theorem withRetryGo_result_eq_last (op : ℕ → Except StripeFailure α)
    (cfg : RetryConfig) (now jf : ℕ → ℚ) :
    ∀ (fuel attempt : ℕ),
      (withRetryGo op cfg now jf attempt fuel).result =
        op (withRetryGo op cfg now jf attempt fuel).attempts := by
  intro fuel
  induction fuel with
  | zero =>
    intro attempt
    rw [withRetryGo]
    rcases h : op attempt with f | v
    · simp only [h]
      split
      · simp [h]
      · simp [h]
    · simp [h]
  | succ fuel ih =>
    intro attempt
    rw [withRetryGo]
    rcases h : op attempt with f | v
    · simp only [h]
      split
      · simp [h]
      · dsimp only
        exact ih (attempt + 1)
    · simp [h]

theorem withRetryGo_intermediate_failures (op : ℕ → Except StripeFailure α)
    (cfg : RetryConfig) (now jf : ℕ → ℚ) :
    ∀ (fuel attempt k : ℕ), attempt ≤ k →
      k < (withRetryGo op cfg now jf attempt fuel).attempts →
      ∃ e, op k = .error e ∧ isRetryableError e.errType = true ∧ k ≤ cfg.maxRetries := by
  intro fuel
  induction fuel with
  | zero =>
    intro attempt k hak hk
    rw [withRetryGo] at hk
    rcases h : op attempt with f | v <;> simp only [h] at hk
    · split at hk
      · (try dsimp only at hk); omega
      · (try dsimp only at hk); omega
    · omega
  | succ fuel ih =>
    intro attempt k hak hk
    rw [withRetryGo] at hk
    rcases h : op attempt with f | v <;> simp only [h] at hk
    · split at hk
      · (try dsimp only at hk); omega
      · rename_i hcond
        simp only [not_or, not_lt, Bool.not_eq_false] at hcond
        dsimp only at hk
        rcases Nat.eq_or_lt_of_le hak with heq | hlt
        · exact ⟨f, heq ▸ h, hcond.2, heq ▸ hcond.1⟩
        · exact ih (attempt + 1) k hlt hk
    · omega

theorem withRetryGo_error_terminal (op : ℕ → Except StripeFailure α)
    (cfg : RetryConfig) (now jf : ℕ → ℚ) :
    ∀ (fuel attempt : ℕ) (e : StripeFailure),
      attempt + fuel = cfg.maxRetries + 1 →
      (withRetryGo op cfg now jf attempt fuel).result = .error e →
      isRetryableError e.errType = false ∨
        (withRetryGo op cfg now jf attempt fuel).attempts = cfg.maxRetries + 1 := by
  intro fuel
  induction fuel with
  | zero =>
    intro attempt e hsum hres
    rw [withRetryGo] at hres ⊢
    rcases h : op attempt with f | v <;> simp only [h] at hres ⊢
    · by_cases hc : cfg.maxRetries < attempt ∨ isRetryableError f.errType = false
      · rw [if_pos hc] at hres ⊢
        simp only [Except.error.injEq] at hres
        rcases hc with hgt | hnr
        · right; dsimp only; omega
        · left; rw [← hres]; exact hnr
      · rw [if_neg hc] at hres ⊢
        simp only [not_or, not_lt] at hc
        omega
    · simp at hres
  | succ fuel ih =>
    intro attempt e hsum hres
    rw [withRetryGo] at hres ⊢
    rcases h : op attempt with f | v <;> simp only [h] at hres ⊢
    · by_cases hc : cfg.maxRetries < attempt ∨ isRetryableError f.errType = false
      · rw [if_pos hc] at hres ⊢
        simp only [Except.error.injEq] at hres
        rcases hc with hgt | hnr
        · omega
        · left; rw [← hres]; exact hnr
      · rw [if_neg hc] at hres ⊢
        dsimp only at hres ⊢
        exact ih (attempt + 1) e (by omega) hres
    · simp at hres

/-! ## Claim C6 -/

/-- C6: retryability is a pure, deterministic, total function of the error
class: exactly `rate_limit`, `network` and `api_error` are retryable, and
`authentication`, `invalid_request`, `card_error`, `idempotency_error` and
`unknown` are not. -/
theorem isRetryableError_fixed_table :
    ∀ e : ErrorType,
      (isRetryableError e = true ↔
        (e = ErrorType.rate_limit ∨ e = ErrorType.network ∨ e = ErrorType.api_error)) ∧
      (isRetryableError e = false ↔
        (e = ErrorType.authentication ∨ e = ErrorType.invalid_request ∨
         e = ErrorType.card_error ∨ e = ErrorType.idempotency_error ∨
         e = ErrorType.unknown)) := by
  intro e; cases e <;> simp [isRetryableError]

/-! ## Claim C7 -/

/-- C7 counterexample: for the retry profile with `backoffMultiplier = 1/2`
and jitter disabled, the backoff delay strictly DECREASES from attempt 1 to
attempt 2, so the claimed monotonicity does not hold for every fixed
profile. -/
theorem calculateDelay_not_monotone_fractional_multiplier :
    halfMultiplierConfig.jitter = false ∧
      calculateDelay 2 halfMultiplierConfig none 0 1 <
        calculateDelay 1 halfMultiplierConfig none 0 1 := by
  constructor
  · rfl
  · norm_num [calculateDelay, halfMultiplierConfig, mathPow, mathMin]

/-- C7 (amended): with jitter disabled and no provider hint the delay is
monotonically non-decreasing in the attempt number for every profile whose
`baseDelay` is non-negative and whose `backoffMultiplier` is at least 1 (the
claim fails for fractional multipliers); and for every profile and attempt —
hint or not — the delay never exceeds `maxDelay`. -/
theorem calculateDelay_monotone_capped :
    (∀ (cfg : RetryConfig) (now jf : ℚ) (n : ℕ),
      cfg.jitter = false → 0 ≤ cfg.baseDelay → 1 ≤ cfg.backoffMultiplier →
      calculateDelay n cfg none now jf ≤ calculateDelay (n + 1) cfg none now jf) ∧
    (∀ (cfg : RetryConfig) (hint : Option ℚ) (now jf : ℚ) (n : ℕ),
      calculateDelay n cfg hint now jf ≤ cfg.maxDelay) := by
  constructor
  · intro cfg now jf n hj hb hm
    simp only [calculateDelay, hj, Bool.false_eq_true, if_false,
      mathMin_eq_min, mathPow_eq_pow]
    refine min_le_min ?_ le_rfl
    refine mul_le_mul_of_nonneg_left ?_ hb
    exact pow_le_pow_right₀ hm (by omega)
  · intro cfg hint now jf n
    rcases hint with _ | t <;>
      · simp only [calculateDelay]
        split_ifs <;> exact mathMin_le_right _ _

/-- C7 witness: the amended monotonicity instantiated at the jitter-free
default-shaped profile and attempt 1. -/
theorem calculateDelay_monotone_capped_witness :
    noJitterConfig.jitter = false ∧ 0 ≤ noJitterConfig.baseDelay ∧
      (1 : ℚ) ≤ noJitterConfig.backoffMultiplier ∧
      calculateDelay 1 noJitterConfig none 0 1 ≤ calculateDelay 2 noJitterConfig none 0 1 :=
  ⟨rfl, by norm_num [noJitterConfig], by norm_num [noJitterConfig],
    calculateDelay_monotone_capped.1 noJitterConfig 0 1 1 rfl
      (by norm_num [noJitterConfig]) (by norm_num [noJitterConfig])⟩

/-! ## Claim C8 -/

/-- C8 counterexample: for a provider hint at or before the current time the
code does NOT return `max(0, hintTime - now) + buffer` capped at `maxDelay`
(which would be 1000 ms here): it falls back to the exponential backoff and
returns 2000 ms.  Hint 5 s = 5000 ms, now = 10000 ms, attempt 2, jitter-free
default-shaped profile. -/
theorem calculateDelay_past_hint_falls_back :
    calculateDelay 2 noJitterConfig (some 5) 10000 1 = 2000 ∧
      mathMin (mathMax 0 (5 * 1000 - 10000) + 1000) noJitterConfig.maxDelay = 1000 := by
  constructor
  · norm_num [calculateDelay, noJitterConfig, mathPow, mathMin]
  · norm_num [mathMin, mathMax, noJitterConfig]

/-- C8 (amended): when a provider hint `t` (seconds) is supplied and lies
strictly in the future (`t * 1000 - now > 0`, and `t ≠ 0` since the JS guard
treats 0 as absent), the delay is `(t * 1000 - now) + 1000` capped at
`maxDelay`; a hint at or before the current time is ignored and the delay
falls back to the exponential-backoff formula. -/
theorem calculateDelay_hint_behavior :
    (∀ (cfg : RetryConfig) (t now jf : ℚ) (attempt : ℕ),
      t ≠ 0 → 0 < t * 1000 - now →
      calculateDelay attempt cfg (some t) now jf =
        mathMin (t * 1000 - now + 1000) cfg.maxDelay) ∧
    (∀ (cfg : RetryConfig) (t now jf : ℚ) (attempt : ℕ),
      t * 1000 - now ≤ 0 →
      calculateDelay attempt cfg (some t) now jf =
        calculateDelay attempt cfg none now jf) := by
  constructor
  · intro cfg t now jf attempt ht hpos
    simp only [calculateDelay, if_neg ht, if_pos hpos]
  · intro cfg t now jf attempt hle
    by_cases ht : t = 0
    · simp only [calculateDelay, if_pos ht]
    · simp only [calculateDelay, if_neg ht, if_neg (not_lt.mpr hle)]

/-- C8 witness: the amended hint rule instantiated at hint 20 s, now 10000 ms,
attempt 1. -/
theorem calculateDelay_hint_behavior_witness :
    (20 : ℚ) ≠ 0 ∧ (0 : ℚ) < 20 * 1000 - 10000 ∧
      calculateDelay 1 noJitterConfig (some 20) 10000 1 =
        mathMin (20 * 1000 - 10000 + 1000) noJitterConfig.maxDelay :=
  ⟨by norm_num, by norm_num,
    calculateDelay_hint_behavior.1 noJitterConfig 20 10000 1 1 (by norm_num) (by norm_num)⟩

/-! ## Claim C10 -/

/-- C10: `withRetry` performs at least 1 and at most `config.maxRetries + 1`
invocations of the operation, for EVERY operation — in particular for one
failing only with rate-limit-classified errors; under the default config
(maxRetries = 3) such an operation is invoked exactly 4 times, not the
lenient profile's 6, while the inter-attempt delays ARE computed from
`RATE_LIMIT_RETRY_CONFIG`. -/
theorem withRetry_attempt_budget :
    (∀ (α : Type) (op : ℕ → Except StripeFailure α) (cfg : RetryConfig) (now jf : ℕ → ℚ),
      1 ≤ (withRetry op cfg now jf).attempts ∧
        (withRetry op cfg now jf).attempts ≤ cfg.maxRetries + 1) ∧
    (∀ now jf : ℕ → ℚ,
      (withRetry (fun _ => (.error ⟨.rate_limit, none⟩ : Except StripeFailure Unit))
          DEFAULT_RETRY_CONFIG now jf).attempts = 4) ∧
    (∀ now jf : ℕ → ℚ,
      (withRetry (fun _ => (.error ⟨.rate_limit, none⟩ : Except StripeFailure Unit))
          DEFAULT_RETRY_CONFIG now jf).sleeps =
        [calculateDelay 1 RATE_LIMIT_RETRY_CONFIG none (now 1) (jf 1),
         calculateDelay 2 RATE_LIMIT_RETRY_CONFIG none (now 2) (jf 2),
         calculateDelay 3 RATE_LIMIT_RETRY_CONFIG none (now 3) (jf 3)]) := by
  refine ⟨?_, fun now jf => rfl, fun now jf => rfl⟩
  intro α op cfg now jf
  have h := withRetryGo_attempts_bounds op cfg now jf cfg.maxRetries 1
  simp only [withRetry]
  exact ⟨h.1, by omega⟩

/-! ## Claim C4 -/

/-- An outbound operation failing with a network-classified error on its
first two invocations and succeeding (with value 42) on the third. -/
def netTwiceOp : ℕ → Except StripeFailure ℕ :=
  fun n => if n ≤ 2 then .error ⟨.network, none⟩ else .ok 42

/-- An outbound operation that always fails with an authentication error. -/
def authFailOp : ℕ → Except StripeFailure ℕ :=
  fun _ => .error ⟨.authentication, none⟩

/-- An outbound operation failing six times with network errors before
succeeding on the seventh invocation. -/
def sixFailOp : ℕ → Except StripeFailure Unit :=
  fun n => if n ≤ 6 then .error ⟨.network, none⟩ else .ok ()

/-- A six-retry, jitter-free retry profile. -/
def sixRetryConfig : RetryConfig :=
  { maxRetries := 6
    baseDelay := 1000
    maxDelay := 30000
    backoffMultiplier := 2
    jitter := false }

/-- The source's default circuit-breaker construction
`new CircuitBreaker(5, 60000)`. -/
def defaultCBConfig : CBConfig := { failureThreshold := 5, resetTimeout := 60000 }

/-- C4 counterexample: `withRetry` does NOT run attempts through the circuit
breaker.  Against an operation whose first six invocations fail with network
errors (retry budget 6), the implemented loop invokes the operation on all
seven attempts and returns the seventh attempt's success, whereas the
claimed breaker-composed loop (threshold 5, reset timeout 60000 ms) trips
open at the fifth failure and terminates with the circuit-open failure
(classified `unknown`) without ever reaching the successful attempt. -/
theorem withRetry_not_through_breaker :
    (withRetry sixFailOp sixRetryConfig (fun _ => 0) (fun _ => 1)).result = .ok () ∧
    (withRetry sixFailOp sixRetryConfig (fun _ => 0) (fun _ => 1)).attempts = 7 ∧
    (withRetryThroughBreaker sixFailOp sixRetryConfig defaultCBConfig
        (fun _ => 0) (fun _ => 1)).1 = .error ⟨.unknown, none⟩ := by
  refine ⟨rfl, rfl, ?_⟩
  have s1 : withRetryThroughBreakerGo sixFailOp sixRetryConfig defaultCBConfig
      (fun _ => 0) (fun _ => 1) 1 6 cbInitState =
      withRetryThroughBreakerGo sixFailOp sixRetryConfig defaultCBConfig
      (fun _ => 0) (fun _ => 1) 2 5 ⟨1, 0, .closed⟩ := by
    rw [withRetryThroughBreakerGo]
    simp [CircuitBreaker.execute, CircuitBreaker.settle, cbInitState, defaultCBConfig,
      sixFailOp, sixRetryConfig, isRetryableError]
  have s2 : withRetryThroughBreakerGo sixFailOp sixRetryConfig defaultCBConfig
      (fun _ => 0) (fun _ => 1) 2 5 ⟨1, 0, .closed⟩ =
      withRetryThroughBreakerGo sixFailOp sixRetryConfig defaultCBConfig
      (fun _ => 0) (fun _ => 1) 3 4 ⟨2, 0, .closed⟩ := by
    rw [withRetryThroughBreakerGo]
    simp [CircuitBreaker.execute, CircuitBreaker.settle, defaultCBConfig,
      sixFailOp, sixRetryConfig, isRetryableError]
  have s3 : withRetryThroughBreakerGo sixFailOp sixRetryConfig defaultCBConfig
      (fun _ => 0) (fun _ => 1) 3 4 ⟨2, 0, .closed⟩ =
      withRetryThroughBreakerGo sixFailOp sixRetryConfig defaultCBConfig
      (fun _ => 0) (fun _ => 1) 4 3 ⟨3, 0, .closed⟩ := by
    rw [withRetryThroughBreakerGo]
    simp [CircuitBreaker.execute, CircuitBreaker.settle, defaultCBConfig,
      sixFailOp, sixRetryConfig, isRetryableError]
  have s4 : withRetryThroughBreakerGo sixFailOp sixRetryConfig defaultCBConfig
      (fun _ => 0) (fun _ => 1) 4 3 ⟨3, 0, .closed⟩ =
      withRetryThroughBreakerGo sixFailOp sixRetryConfig defaultCBConfig
      (fun _ => 0) (fun _ => 1) 5 2 ⟨4, 0, .closed⟩ := by
    rw [withRetryThroughBreakerGo]
    simp [CircuitBreaker.execute, CircuitBreaker.settle, defaultCBConfig,
      sixFailOp, sixRetryConfig, isRetryableError]
  have s5 : withRetryThroughBreakerGo sixFailOp sixRetryConfig defaultCBConfig
      (fun _ => 0) (fun _ => 1) 5 2 ⟨4, 0, .closed⟩ =
      withRetryThroughBreakerGo sixFailOp sixRetryConfig defaultCBConfig
      (fun _ => 0) (fun _ => 1) 6 1 ⟨5, 0, .opened⟩ := by
    rw [withRetryThroughBreakerGo]
    simp [CircuitBreaker.execute, CircuitBreaker.settle, defaultCBConfig,
      sixFailOp, sixRetryConfig, isRetryableError]
  have s6 : withRetryThroughBreakerGo sixFailOp sixRetryConfig defaultCBConfig
      (fun _ => 0) (fun _ => 1) 6 1 ⟨5, 0, .opened⟩ =
      (.error ⟨.unknown, none⟩, ⟨5, 0, .opened⟩, 6) := by
    rw [withRetryThroughBreakerGo]
    simp [CircuitBreaker.execute, CircuitBreaker.settle, defaultCBConfig,
      sixFailOp, sixRetryConfig, isRetryableError]
    norm_num
  show (withRetryThroughBreakerGo sixFailOp sixRetryConfig defaultCBConfig
      (fun _ => 0) (fun _ => 1) 1 6 cbInitState).1 = _
  rw [s1, s2, s3, s4, s5, s6]

/-- C4 (amended): `withRetry` loops over attempts `1 .. maxRetries + 1`
invoking the operation DIRECTLY (the circuit breaker is not consulted; the
repository applies its breaker around whole retried calls, not per attempt):
the loop returns at the first successful attempt; its outcome is always the
final attempt's outcome, so a terminal failure carries the original
classified error; every attempt before the final one failed with a
retryable class within the budget; a terminal failure is raised only for a
non-retryable class or once the attempt budget `maxRetries + 1` is spent.
In particular two network failures then a success under the default profile
yield the success value after exactly three attempts, and an
authentication failure on the first attempt is re-raised immediately with no
retry and no backoff sleep. -/
theorem withRetry_loop_characterization :
    (∀ (α : Type) (op : ℕ → Except StripeFailure α) (cfg : RetryConfig) (now jf : ℕ → ℚ),
      (withRetry op cfg now jf).result = op (withRetry op cfg now jf).attempts ∧
      1 ≤ (withRetry op cfg now jf).attempts ∧
      (withRetry op cfg now jf).attempts ≤ cfg.maxRetries + 1 ∧
      (∀ k, 1 ≤ k → k < (withRetry op cfg now jf).attempts →
        ∃ e, op k = .error e ∧ isRetryableError e.errType = true ∧ k ≤ cfg.maxRetries) ∧
      (∀ e, (withRetry op cfg now jf).result = .error e →
        isRetryableError e.errType = false ∨
          (withRetry op cfg now jf).attempts = cfg.maxRetries + 1)) ∧
    (∀ now jf : ℕ → ℚ,
      (withRetry netTwiceOp DEFAULT_RETRY_CONFIG now jf).result = .ok 42 ∧
      (withRetry netTwiceOp DEFAULT_RETRY_CONFIG now jf).attempts = 3) ∧
    (∀ now jf : ℕ → ℚ,
      (withRetry authFailOp DEFAULT_RETRY_CONFIG now jf).result =
        .error ⟨.authentication, none⟩ ∧
      (withRetry authFailOp DEFAULT_RETRY_CONFIG now jf).attempts = 1 ∧
      (withRetry authFailOp DEFAULT_RETRY_CONFIG now jf).sleeps = []) := by
  refine ⟨?_, fun now jf => ⟨rfl, rfl⟩, fun now jf => ⟨rfl, rfl, rfl⟩⟩
  intro α op cfg now jf
  have hb := withRetryGo_attempts_bounds op cfg now jf cfg.maxRetries 1
  simp only [withRetry]
  exact ⟨withRetryGo_result_eq_last op cfg now jf cfg.maxRetries 1, hb.1, by omega,
    fun k hk1 hk2 => withRetryGo_intermediate_failures op cfg now jf cfg.maxRetries 1 k hk1 hk2,
    fun e he => withRetryGo_error_terminal op cfg now jf cfg.maxRetries 1 e (by omega) he⟩

/-- C4 witness: the loop characterization applied to the two-network-failure
operation at its second (non-final) attempt. -/
theorem withRetry_loop_characterization_witness :
    ∃ e, netTwiceOp 2 = .error e ∧ isRetryableError e.errType = true ∧
      2 ≤ DEFAULT_RETRY_CONFIG.maxRetries :=
  (withRetry_loop_characterization.1 ℕ netTwiceOp DEFAULT_RETRY_CONFIG
    (fun _ => 0) (fun _ => 1)).2.2.2.1 2 (by norm_num) (by decide)

/-! ## Claim C5 -/

/-- Breaker invariant: away from `closed` the failure counter has reached the
threshold (the counter is only reset together with a transition to `closed`).
This is what makes a failed half-open probe reopen the breaker. -/
def CBInv (cfg : CBConfig) (s : CBState) : Prop :=
  s.status ≠ .closed → cfg.failureThreshold ≤ s.failures

theorem execute_preserves_inv {ε α : Type} (cfg : CBConfig) (s : CBState) (now : ℚ)
    (op : Except ε α) (h : CBInv cfg s) :
    CBInv cfg (CircuitBreaker.execute cfg s now op).2 := by
  rw [CircuitBreaker.execute]
  split_ifs with hs ht
  · rcases op with e | v
    · rw [CircuitBreaker.settle]
      intro _
      have hf := h (by rw [hs]; exact fun hcl => by cases hcl)
      dsimp only
      omega
    · rw [CircuitBreaker.settle]
      intro hcl
      exact absurd rfl hcl
  · exact h
  · rcases op with e | v
    · rw [CircuitBreaker.settle]
      intro hne
      dsimp only at hne ⊢
      by_cases hth : cfg.failureThreshold ≤ s.failures + 1
      · omega
      · rw [if_neg hth] at hne
        have := h hne
        omega
    · rw [CircuitBreaker.settle]
      intro hcl
      exact absurd rfl hcl

theorem cbRun_preserves_inv (cfg : CBConfig) :
    ∀ (calls : List CBCall) (s : CBState), CBInv cfg s → CBInv cfg (cbRun cfg s calls) := by
  intro calls
  induction calls with
  | nil => exact fun s h => h
  | cons c cs ih =>
    intro s h
    rw [cbRun]
    exact ih _ (execute_preserves_inv cfg s c.now _ h)

theorem cbReachable_inv (cfg : CBConfig) (s : CBState) (h : CBReachable cfg s) :
    CBInv cfg s := by
  obtain ⟨calls, hc⟩ := h
  rw [← hc]
  exact cbRun_preserves_inv cfg calls cbInitState (fun hne => absurd rfl hne)

theorem cbRun_opened_all_fail (cfg : CBConfig) :
    ∀ (calls : List CBCall) (s : CBState), s.status = .opened →
      cfg.failureThreshold ≤ s.failures → (∀ c ∈ calls, c.fails = true) →
      (cbRun cfg s calls).status = .opened ∧
        cfg.failureThreshold ≤ (cbRun cfg s calls).failures := by
  intro calls
  induction calls with
  | nil => exact fun s hs hf _ => ⟨hs, hf⟩
  | cons c cs ih =>
    intro s hs hf hall
    rw [cbRun]
    have hc : c.fails = true := hall c (List.mem_cons_self c cs)
    have hstep : (cbStep cfg s c).status = .opened ∧
        cfg.failureThreshold ≤ (cbStep cfg s c).failures := by
      have hth : cfg.failureThreshold ≤ s.failures + 1 := by omega
      simp only [cbStep, hc, eq_self_iff_true, if_true]
      rw [CircuitBreaker.execute, if_pos hs]
      split_ifs with ht
      · rw [CircuitBreaker.settle]
        dsimp only
        rw [if_pos hth]
        exact ⟨rfl, hth⟩
      · exact ⟨hs, hf⟩
    exact ih _ hstep.1 hstep.2 (fun d hd => hall d (List.mem_cons_of_mem c hd))

theorem cbRun_closed_all_fail (cfg : CBConfig) :
    ∀ (calls : List CBCall) (s : CBState), s.status = .closed →
      (∀ c ∈ calls, c.fails = true) → 1 ≤ calls.length →
      cfg.failureThreshold ≤ s.failures + calls.length →
      (cbRun cfg s calls).status = .opened := by
  intro calls
  induction calls with
  | nil => intro s _ _ hlen _; simp at hlen
  | cons c cs ih =>
    intro s hs hall hlen hth
    rw [cbRun]
    have hc : c.fails = true := hall c (List.mem_cons_self c cs)
    have hnotopen : ¬ s.status = .opened := by rw [hs]; exact fun hcl => by cases hcl
    have hstep : cbStep cfg s c =
        ⟨s.failures + 1, c.now,
          if cfg.failureThreshold ≤ s.failures + 1 then .opened else s.status⟩ := by
      simp only [cbStep, hc, eq_self_iff_true, if_true]
      rw [CircuitBreaker.execute, if_neg hnotopen, CircuitBreaker.settle]
    by_cases hth1 : cfg.failureThreshold ≤ s.failures + 1
    · have hopen : (cbStep cfg s c).status = .opened := by rw [hstep]; dsimp only; rw [if_pos hth1]
      have hfail : cfg.failureThreshold ≤ (cbStep cfg s c).failures := by
        rw [hstep]; dsimp only; omega
      exact (cbRun_opened_all_fail cfg cs _ hopen hfail
        (fun d hd => hall d (List.mem_cons_of_mem c hd))).1
    · have hclosed : (cbStep cfg s c).status = .closed := by
        rw [hstep]; dsimp only; rw [if_neg hth1]; exact hs
      have hflen : cfg.failureThreshold ≤ (cbStep cfg s c).failures + cs.length := by
        rw [hstep]; dsimp only; simp only [List.length_cons] at hth; omega
      have hlen1 : 1 ≤ cs.length := by
        simp only [List.length_cons] at hth
        by_contra hno
        have : cs.length = 0 := by omega
        omega
      exact ih _ hclosed (fun d hd => hall d (List.mem_cons_of_mem c hd)) hlen1 hflen

/-- C5: the circuit breaker obeys the claimed state machine.
(1) From a fresh breaker, a sequence of at least `failureThreshold` calls whose
wrapped operation fails (whenever invoked) leaves the breaker `open`.
(2) A call while `open` with `now - lastFailureTime ≤ resetTimeout` is
rejected without invoking the wrapped operation and leaves the state
untouched.
(3) Once `resetTimeout` has strictly elapsed, the next call is let through as
the single half-open probe; its success moves the breaker to `closed` with
`failures` reset to 0.
(4) A failed probe moves any reachable breaker back to `open`.
(5) A successful call while `closed` resets `failures` to 0 (staying
`closed`). -/
theorem circuitBreaker_state_machine :
    (∀ (cfg : CBConfig) (calls : List CBCall),
      1 ≤ cfg.failureThreshold → (∀ c ∈ calls, c.fails = true) →
      cfg.failureThreshold ≤ calls.length →
      (cbRun cfg cbInitState calls).status = .opened) ∧
    (∀ (ε α : Type) (cfg : CBConfig) (s : CBState) (now : ℚ) (op : Except ε α),
      s.status = .opened → now - s.lastFailureTime ≤ cfg.resetTimeout →
      CircuitBreaker.execute cfg s now op = (.rejected, s)) ∧
    (∀ (ε α : Type) (cfg : CBConfig) (s : CBState) (now : ℚ) (v : α),
      s.status = .opened → cfg.resetTimeout < now - s.lastFailureTime →
      CircuitBreaker.execute cfg s now (.ok v : Except ε α) =
        (.completed (.ok v), ⟨0, s.lastFailureTime, .closed⟩)) ∧
    (∀ (ε α : Type) (cfg : CBConfig) (s : CBState) (now : ℚ) (e : ε),
      s.status = .opened → cfg.resetTimeout < now - s.lastFailureTime →
      CBReachable cfg s →
      (CircuitBreaker.execute cfg s now (.error e : Except ε α)).1 =
        .completed (.error e) ∧
      ((CircuitBreaker.execute cfg s now (.error e : Except ε α)).2).status = .opened) ∧
    (∀ (ε α : Type) (cfg : CBConfig) (s : CBState) (now : ℚ) (v : α),
      s.status = .closed →
      CircuitBreaker.execute cfg s now (.ok v : Except ε α) =
        (.completed (.ok v), ⟨0, s.lastFailureTime, .closed⟩)) := by
  refine ⟨?_, ?_, ?_, ?_, ?_⟩
  · intro cfg calls hth hall hlen
    exact cbRun_closed_all_fail cfg calls cbInitState rfl hall (by omega) (by simp [cbInitState]; omega)
  · intro ε α cfg s now op hs ht
    rw [CircuitBreaker.execute, if_pos hs, if_neg (not_lt.mpr ht)]
  · intro ε α cfg s now v hs ht
    rw [CircuitBreaker.execute, if_pos hs, if_pos ht, CircuitBreaker.settle]
  · intro ε α cfg s now e hs ht hreach
    have hinv : cfg.failureThreshold ≤ s.failures :=
      cbReachable_inv cfg s hreach (by rw [hs]; exact fun hcl => by cases hcl)
    rw [CircuitBreaker.execute, if_pos hs, if_pos ht, CircuitBreaker.settle]
    dsimp only
    rw [if_pos (by omega : cfg.failureThreshold ≤ s.failures + 1)]
    exact ⟨rfl, rfl⟩
  · intro ε α cfg s now v hs
    rw [CircuitBreaker.execute, if_neg (by rw [hs]; exact fun hcl => by cases hcl),
      CircuitBreaker.settle]

/-- Five consecutive failing calls at time 0. -/
def fiveFailCalls : List CBCall := List.replicate 5 ⟨0, true⟩

/-- C5 witness: the state machine instantiated at the source's default
construction `new CircuitBreaker(5, 60000)`: five failures at time 0 open the
breaker; a call at 30000 ms is rejected unchanged; a probe at 70000 ms closes
it on success and reopens it on failure; a success while closed resets the
counter. -/
theorem circuitBreaker_state_machine_witness :
    (cbRun defaultCBConfig cbInitState fiveFailCalls).status = .opened ∧
    CircuitBreaker.execute defaultCBConfig ⟨5, 0, .opened⟩ 30000
      (.error () : Except Unit Unit) = (.rejected, ⟨5, 0, .opened⟩) ∧
    CircuitBreaker.execute defaultCBConfig ⟨5, 0, .opened⟩ 70000
      (.ok () : Except Unit Unit) = (.completed (.ok ()), ⟨0, 0, .closed⟩) ∧
    ((CircuitBreaker.execute defaultCBConfig ⟨5, 0, .opened⟩ 70000
      (.error () : Except Unit Unit)).2).status = .opened ∧
    CircuitBreaker.execute defaultCBConfig ⟨3, 0, .closed⟩ 5
      (.ok () : Except Unit Unit) = (.completed (.ok ()), ⟨0, 0, .closed⟩) := by
  refine ⟨?_, ?_, ?_, ?_, ?_⟩
  · exact circuitBreaker_state_machine.1 defaultCBConfig fiveFailCalls (by norm_num [defaultCBConfig])
      (fun c hc => by rw [List.eq_of_mem_replicate hc]) (by norm_num [defaultCBConfig, fiveFailCalls])
  · exact circuitBreaker_state_machine.2.1 Unit Unit defaultCBConfig ⟨5, 0, .opened⟩ 30000
      (.error ()) rfl (by norm_num [defaultCBConfig])
  · exact circuitBreaker_state_machine.2.2.1 Unit Unit defaultCBConfig ⟨5, 0, .opened⟩ 70000
      () rfl (by norm_num [defaultCBConfig])
  · exact (circuitBreaker_state_machine.2.2.2.1 Unit Unit defaultCBConfig ⟨5, 0, .opened⟩ 70000
      () rfl (by norm_num [defaultCBConfig]) ⟨fiveFailCalls, rfl⟩).2
  · exact circuitBreaker_state_machine.2.2.2.2 Unit Unit defaultCBConfig ⟨3, 0, .closed⟩ 5
      () rfl

/-! ## Webhook gateway lemmas -/

theorem serveWebhook_replay (dispatch : StripeEvent → Except ErrorType Bool)
    (e : StripeEvent) (s : WebhookState) (h : e.id ∈ s.processedEvents) :
    serveWebhook true dispatch (deliveryOf e) s =
      ⟨⟨200, .ack true false e.id e.type⟩, s, false⟩ := by
  simp [serveWebhook, deliveryOf, h]

theorem runDeliveries_replay (e : StripeEvent) :
    ∀ (outcomes : List (Except ErrorType Bool)) (s : WebhookState),
      e.id ∈ s.processedEvents →
      runDeliveries true e outcomes s =
        outcomes.map (fun _ => ⟨⟨200, .ack true false e.id e.type⟩, s, false⟩) := by
  intro outcomes
  induction outcomes with
  | nil => intro s _; rfl
  | cons o rest ih =>
    intro s h
    rw [runDeliveries, serveWebhook_replay (fun _ => o) e s h]
    (try dsimp only)
    rw [ih s h]
    rfl

theorem serveWebhook_ok_state (e : StripeEvent) (s : WebhookState) (b : Bool)
    (h : e.id ∉ s.processedEvents) :
    (serveWebhook true (fun _ => Except.ok b) (deliveryOf e) s).state.processedEvents =
      e.id :: s.processedEvents := by
  by_cases hh : e.type ∈ handledEventTypes <;>
    simp [serveWebhook, deliveryOf, h, hh]

theorem serveWebhook_error_state (e : StripeEvent) (s : WebhookState) (c : ErrorType)
    (h : e.id ∉ s.processedEvents) (hh : e.type ∈ handledEventTypes)
    (hu : e.id ≠ "unknown") :
    (serveWebhook true (fun _ => Except.error c) (deliveryOf e) s).state.processedEvents =
      s.processedEvents ∧
    (serveWebhook true (fun _ => Except.error c) (deliveryOf e) s).handlerInvoked = true := by
  simp [serveWebhook, deliveryOf, h, hh, hu]

theorem serveWebhook_fresh_invoked (dispatch : StripeEvent → Except ErrorType Bool)
    (e : StripeEvent) (s : WebhookState)
    (h : e.id ∉ s.processedEvents) (hh : e.type ∈ handledEventTypes) :
    (serveWebhook true dispatch (deliveryOf e) s).handlerInvoked = true := by
  rcases hd : dispatch e with c | p <;> simp [serveWebhook, deliveryOf, h, hh, hd]

/-! ## Claim C1 -/

/-- The signed event used in concrete webhook runs. -/
def cexEvent : StripeEvent := ⟨"evt_1", "checkout.session.completed"⟩

/-- C1 counterexample: two deliveries of the same signed event id where the
first delivery's handler throws.  The catch block releases the idempotency
claim, so the second delivery dispatches the handler AGAIN (two invocations)
and is answered `200 {received: true, processed: true}` — not
`processed: false` as the claim requires for every delivery after the
first. -/
theorem webhook_redelivery_after_failure_reprocesses :
    runDeliveries true cexEvent [Except.error ErrorType.unknown, Except.ok true]
        webhookInitState =
      [⟨⟨500, .errorBody .unknown⟩, ⟨[], [("evt_1", 1)]⟩, true⟩,
       ⟨⟨200, .ack true true "evt_1" "checkout.session.completed"⟩,
        ⟨["evt_1"], [("evt_1", 2)]⟩, true⟩] := by
  decide

/-- C1 (amended): for deliveries of the same signed event id in which no
handler invocation throws (every dispatch outcome is a normal return,
successful or skipped), the handler is invoked at most once — on the first
delivery — and every later delivery is answered
`200 {received: true, processed: false, eventId, eventType}` without invoking
a handler. -/
theorem webhook_idempotent_deliveries :
    ∀ (e : StripeEvent) (outcomes : List (Except ErrorType Bool)) (s : WebhookState),
      e.id ∉ s.processedEvents →
      (∀ o ∈ outcomes, ∃ b, o = Except.ok b) →
      ((runDeliveries true e outcomes s).filter (fun r => r.handlerInvoked)).length ≤ 1 ∧
      ∀ r ∈ (runDeliveries true e outcomes s).tail,
        r.response = ⟨200, .ack true false e.id e.type⟩ ∧ r.handlerInvoked = false := by
  intro e outcomes s hfresh hok
  cases outcomes with
  | nil => exact ⟨by simp [runDeliveries], by simp [runDeliveries]⟩
  | cons o rest =>
    obtain ⟨b, hb⟩ := hok o (List.mem_cons_self o rest)
    subst hb
    rw [runDeliveries]
    have hmem : e.id ∈
        (serveWebhook true (fun _ => Except.ok b) (deliveryOf e) s).state.processedEvents := by
      rw [serveWebhook_ok_state e s b hfresh]
      exact List.mem_cons_self _ _
    have hrest := runDeliveries_replay e rest _ hmem
    rw [hrest]
    constructor
    · have hK : (rest.map (fun _ =>
          (⟨⟨200, .ack true false e.id e.type⟩,
            (serveWebhook true (fun _ => Except.ok b) (deliveryOf e) s).state,
            false⟩ : ServeResult))).filter (fun x => x.handlerInvoked) = [] := by
        rw [List.filter_eq_nil_iff]
        intro a ha
        obtain ⟨o2, _, rfl⟩ := List.mem_map.mp ha
        simp
      rw [List.filter_cons]
      split_ifs <;> simp [hK]
    · intro r hr
      rw [List.tail_cons] at hr
      obtain ⟨o2, _, rfl⟩ := List.mem_map.mp hr
      exact ⟨rfl, rfl⟩

/-- C1 witness: two exception-free deliveries of the same event. -/
theorem webhook_idempotent_deliveries_witness :
    cexEvent.id ∉ webhookInitState.processedEvents ∧
    ((runDeliveries true cexEvent [Except.ok true, Except.ok false]
        webhookInitState).filter (fun r => r.handlerInvoked)).length ≤ 1 ∧
    ∀ r ∈ (runDeliveries true cexEvent [Except.ok true, Except.ok false]
        webhookInitState).tail,
      r.response = ⟨200, .ack true false cexEvent.id cexEvent.type⟩ ∧
        r.handlerInvoked = false := by
  have hok : ∀ o ∈ [Except.ok true, (Except.ok false : Except ErrorType Bool)],
      ∃ b, o = Except.ok b := by
    intro o ho
    simp only [List.mem_cons, List.not_mem_nil, or_false] at ho
    rcases ho with rfl | rfl
    · exact ⟨true, rfl⟩
    · exact ⟨false, rfl⟩
  have h := webhook_idempotent_deliveries cexEvent
    [Except.ok true, Except.ok false] webhookInitState (by decide) hok
  exact ⟨by decide, h.1, h.2⟩

/-! ## Claim C2 -/

/-- A signed event whose id is the implementation's sentinel string. -/
def unknownIdEvent : StripeEvent := ⟨"unknown", "checkout.session.completed"⟩

/-- C2 counterexample: for the event id `"unknown"` (colliding with the
sentinel the catch block uses for "id not yet parsed"), a handler failure
after claiming does NOT release the claim: the id stays in
`processedEvents`, and a provider redelivery is answered
`processed: false` without invoking the handler, contradicting the claim for
this event id. -/
theorem webhook_claim_not_released_for_unknown_id :
    (serveWebhook true (fun _ => Except.error ErrorType.api_error)
        (deliveryOf unknownIdEvent) webhookInitState).state.processedEvents = ["unknown"] ∧
    (serveWebhook true (fun _ => Except.error ErrorType.api_error)
        (deliveryOf unknownIdEvent) webhookInitState).handlerInvoked = true ∧
    (serveWebhook true (fun _ => Except.ok true) (deliveryOf unknownIdEvent)
        ⟨["unknown"], [("unknown", 1)]⟩).response =
      ⟨200, .ack true false "unknown" "checkout.session.completed"⟩ ∧
    (serveWebhook true (fun _ => Except.ok true) (deliveryOf unknownIdEvent)
        ⟨["unknown"], [("unknown", 1)]⟩).handlerInvoked = false := by
  decide

/-- C2 (amended): for every event id other than the literal sentinel string
`"unknown"`, a handler exception after the id was claimed makes the gateway
remove the id from the processed-events set (restoring it exactly), so a
provider redelivery dispatches the handler again; after a handler that
returns normally the id stays claimed — a claim is never released after a
successful handling. -/
theorem webhook_claim_release_on_failure :
    ∀ (e : StripeEvent) (s : WebhookState) (c : ErrorType) (b : Bool),
      e.id ∉ s.processedEvents → e.type ∈ handledEventTypes → e.id ≠ "unknown" →
      ((serveWebhook true (fun _ => Except.error c) (deliveryOf e) s).state.processedEvents =
          s.processedEvents ∧
        (serveWebhook true (fun _ => Except.error c) (deliveryOf e) s).handlerInvoked = true ∧
        (serveWebhook true (fun _ => Except.ok b) (deliveryOf e)
            (serveWebhook true (fun _ => Except.error c) (deliveryOf e) s).state).handlerInvoked =
          true) ∧
      (serveWebhook true (fun _ => Except.ok b) (deliveryOf e) s).state.processedEvents =
        e.id :: s.processedEvents := by
  intro e s c b hfresh hh hu
  obtain ⟨hst, hinv⟩ := serveWebhook_error_state e s c hfresh hh hu
  refine ⟨⟨hst, hinv, ?_⟩, serveWebhook_ok_state e s b hfresh⟩
  exact serveWebhook_fresh_invoked _ e _ (by rw [hst]; exact hfresh) hh

/-- A fresh, normally-handled event used to instantiate the webhook
theorems. -/
def freshEvent : StripeEvent := ⟨"evt_2", "payment_intent.succeeded"⟩

/-- C2 witness: release-and-reprocess at a concrete fresh event. -/
theorem webhook_claim_release_on_failure_witness :
    freshEvent.id ∉ webhookInitState.processedEvents ∧
    freshEvent.type ∈ handledEventTypes ∧ freshEvent.id ≠ "unknown" ∧
    (serveWebhook true (fun _ => Except.error ErrorType.network) (deliveryOf freshEvent)
        webhookInitState).state.processedEvents = webhookInitState.processedEvents ∧
    (serveWebhook true (fun _ => Except.ok true) (deliveryOf freshEvent)
        webhookInitState).state.processedEvents =
      freshEvent.id :: webhookInitState.processedEvents := by
  have h := webhook_claim_release_on_failure freshEvent webhookInitState
    ErrorType.network true (by decide) (by decide) (by decide)
  exact ⟨by decide, by decide, by decide, h.1.1, h.2⟩

/-! ## Claim C3 -/

/-- C3 counterexample: a correctly signed POST of a handled event type whose
processing throws an (unknown-classified) exception is answered with the
`createErrorResponse` status 500 — not 200, and not one of the claimed 400
(signature) / 405 (method) exceptions. -/
theorem webhook_non200_on_processing_error :
    (serveWebhook true (fun _ => Except.error ErrorType.unknown) (deliveryOf cexEvent)
        webhookInitState).response = ⟨500, .errorBody .unknown⟩ := by
  decide

/-- C3 (amended): a correctly signed POST whose dispatch returns normally is
always answered `200 {received, processed, eventId, eventType}`; a non-200
response arises exactly from: a non-POST method (405), a missing signature
(400), a failed signature verification (400), an unconfigured webhook secret
(500), or a thrown processing error (the error-classifier status for its
class). -/
theorem webhook_response_policy :
    (∀ (dispatch : StripeEvent → Except ErrorType Bool) (e : StripeEvent)
        (s : WebhookState) (p : Bool),
      dispatch e = .ok p →
      (serveWebhook true dispatch (deliveryOf e) s).response.status = 200 ∧
      ∃ pr, (serveWebhook true dispatch (deliveryOf e) s).response.body =
        .ack true pr e.id e.type) ∧
    (∀ (secret : Bool) (dispatch : StripeEvent → Except ErrorType Bool)
        (req : WebhookRequest) (s : WebhookState),
      (serveWebhook secret dispatch req s).response.status ≠ 200 →
      ((serveWebhook secret dispatch req s).response = ⟨405, .methodNotAllowed⟩ ∧
          req.method ≠ .post ∧ req.method ≠ .options) ∨
      ((serveWebhook secret dispatch req s).response = ⟨400, .missingSignature⟩ ∧
          req.hasSignature = false) ∨
      ((serveWebhook secret dispatch req s).response = ⟨400, .invalidSignature⟩ ∧
          req.verifiedEvent = none) ∨
      ((serveWebhook secret dispatch req s).response = ⟨500, .notConfigured⟩ ∧
          secret = false) ∨
      (∃ c e, (serveWebhook secret dispatch req s).response =
          ⟨createErrorStatusCode c, .errorBody c⟩ ∧
        req.verifiedEvent = some e ∧ dispatch e = .error c)) := by
  constructor
  · intro dispatch e s p hd
    by_cases hmem : e.id ∈ s.processedEvents
    · rw [serveWebhook_replay dispatch e s hmem]
      exact ⟨rfl, false, rfl⟩
    · by_cases hh : e.type ∈ handledEventTypes
      · refine ⟨?_, p, ?_⟩ <;> simp [serveWebhook, deliveryOf, hmem, hh, hd]
      · refine ⟨?_, false, ?_⟩ <;> simp [serveWebhook, deliveryOf, hmem, hh]
  · intro secret dispatch req s hst
    rw [serveWebhook] at hst ⊢
    by_cases h1 : req.method = .options
    · rw [if_pos h1] at hst
      exact absurd rfl hst
    · rw [if_neg h1] at hst ⊢
      by_cases h2 : req.method ≠ .post
      · rw [if_pos h2] at hst ⊢
        exact Or.inl ⟨rfl, h2, h1⟩
      · rw [if_neg h2] at hst ⊢
        by_cases h3 : req.hasSignature = false
        · rw [if_pos h3] at hst ⊢
          exact Or.inr (Or.inl ⟨rfl, h3⟩)
        · rw [if_neg h3] at hst ⊢
          by_cases h4 : secret = false
          · rw [if_pos h4] at hst ⊢
            exact Or.inr (Or.inr (Or.inr (Or.inl ⟨rfl, h4⟩)))
          · rw [if_neg h4] at hst ⊢
            rcases hv : req.verifiedEvent with _ | e
            · rw [hv] at hst
              dsimp only at hst ⊢
              exact Or.inr (Or.inr (Or.inl ⟨rfl, rfl⟩))
            · rw [hv] at hst
              dsimp only at hst ⊢
              by_cases hmem : e.id ∈ s.processedEvents
              · rw [if_pos hmem] at hst
                exact absurd rfl hst
              · rw [if_neg hmem] at hst ⊢
                by_cases hh : e.type ∈ handledEventTypes
                · rw [if_pos hh] at hst ⊢
                  rcases hd : dispatch e with c | p
                  · simp only [hd] at hst ⊢
                    exact Or.inr (Or.inr (Or.inr (Or.inr ⟨c, e, rfl, rfl, hd⟩)))
                  · simp only [hd] at hst
                    exact absurd rfl hst
                · rw [if_neg hh] at hst
                  exact absurd rfl hst

/-- C3 witness: the 200 acknowledgement rule at a concrete signed event with
a successful dispatch. -/
theorem webhook_response_policy_witness :
    (fun _ : StripeEvent => (Except.ok true : Except ErrorType Bool)) freshEvent =
      Except.ok true ∧
    (serveWebhook true (fun _ => Except.ok true) (deliveryOf freshEvent)
        webhookInitState).response.status = 200 ∧
    ∃ pr, (serveWebhook true (fun _ => Except.ok true) (deliveryOf freshEvent)
        webhookInitState).response.body = .ack true pr freshEvent.id freshEvent.type := by
  have h := webhook_response_policy.1 (fun _ => Except.ok true) freshEvent
    webhookInitState true rfl
  exact ⟨rfl, h.1, h.2⟩

/-! ## Notification cache lemmas -/

theorem cacheGet_removeKey_self (k : String) :
    ∀ c : NotificationCache, cacheGet (removeKey c k) k = none := by
  intro c
  induction c with
  | nil => rfl
  | cons p c ih =>
    rcases p with ⟨k1, v⟩
    rw [removeKey]
    by_cases h1 : k1 = k
    · rw [if_pos h1]; exact ih
    · rw [if_neg h1, cacheGet, if_neg (fun hk => h1 hk.symm)]
      exact ih

theorem cacheGet_removeKey_other (kd k : String) (h : k ≠ kd) :
    ∀ c : NotificationCache, cacheGet (removeKey c kd) k = cacheGet c k := by
  intro c
  induction c with
  | nil => rfl
  | cons p c ih =>
    rcases p with ⟨k1, v⟩
    rw [removeKey]
    by_cases h1 : k1 = kd
    · subst h1
      rw [if_pos rfl, cacheGet, if_neg h]
      exact ih
    · rw [if_neg h1, cacheGet, cacheGet]
      by_cases h2 : k = k1
      · rw [if_pos h2, if_pos h2]
      · rw [if_neg h2, if_neg h2]
        exact ih

theorem mem_removeKey (k : String) (p : String × ℚ) :
    ∀ c : NotificationCache, p ∈ removeKey c k → p ∈ c := by
  intro c
  induction c with
  | nil => intro h; cases h
  | cons q c ih =>
    rcases q with ⟨k1, v⟩
    rw [removeKey]
    by_cases h1 : k1 = k
    · rw [if_pos h1]
      intro h
      exact List.mem_cons_of_mem _ (ih h)
    · rw [if_neg h1]
      intro h
      rcases List.mem_cons.mp h with rfl | h2
      · exact List.mem_cons_self _ _
      · exact List.mem_cons_of_mem _ (ih h2)

theorem keys_removeKey_subset (k k2 : String) :
    ∀ c : NotificationCache, k2 ∈ (removeKey c k).map Prod.fst → k2 ∈ c.map Prod.fst := by
  intro c h
  obtain ⟨p, hp, rfl⟩ := List.mem_map.mp h
  exact List.mem_map.mpr ⟨p, mem_removeKey k p c hp, rfl⟩

theorem not_mem_keys_removeKey (k : String) :
    ∀ c : NotificationCache, k ∉ (removeKey c k).map Prod.fst := by
  intro c
  induction c with
  | nil => intro h; cases h
  | cons q c ih =>
    rcases q with ⟨k1, v⟩
    rw [removeKey]
    by_cases h1 : k1 = k
    · rw [if_pos h1]; exact ih
    · rw [if_neg h1]
      simp only [List.map_cons, List.mem_cons]
      rintro (rfl | h2)
      · exact h1 rfl
      · exact ih h2

theorem nodup_keys_removeKey (k : String) :
    ∀ c : NotificationCache, (c.map Prod.fst).Nodup →
      ((removeKey c k).map Prod.fst).Nodup := by
  intro c
  induction c with
  | nil => intro _; exact List.nodup_nil
  | cons q c ih =>
    rcases q with ⟨k1, v⟩
    intro hnd
    simp only [List.map_cons, List.nodup_cons] at hnd
    rw [removeKey]
    by_cases h1 : k1 = k
    · rw [if_pos h1]; exact ih hnd.2
    · rw [if_neg h1]
      simp only [List.map_cons, List.nodup_cons]
      exact ⟨fun hm => hnd.1 (keys_removeKey_subset k k1 c hm), ih hnd.2⟩

theorem nodup_keys_cacheSet (c : NotificationCache) (kd : String) (v : ℚ)
    (h : (c.map Prod.fst).Nodup) :
    ((cacheSet c kd v).map Prod.fst).Nodup := by
  rw [cacheSet]
  simp only [List.map_cons, List.nodup_cons]
  exact ⟨not_mem_keys_removeKey kd c, nodup_keys_removeKey kd c h⟩

theorem cacheGet_eq_none_of_not_mem (k : String) :
    ∀ c : NotificationCache, k ∉ c.map Prod.fst → cacheGet c k = none := by
  intro c
  induction c with
  | nil => intro _; rfl
  | cons p c ih =>
    rcases p with ⟨k1, v⟩
    intro hk
    simp only [List.map_cons, List.mem_cons] at hk
    push_neg at hk
    rw [cacheGet, if_neg hk.1]
    exact ih hk.2

theorem cacheGet_pruneOld_none (cutoff : ℚ) (k : String) :
    ∀ c : NotificationCache, cacheGet c k = none →
      cacheGet (pruneOld c cutoff) k = none := by
  intro c
  induction c with
  | nil => intro _; rfl
  | cons p c ih =>
    rcases p with ⟨k1, v⟩
    intro h
    by_cases h1 : k = k1
    · rw [cacheGet, if_pos h1] at h; cases h
    · rw [cacheGet, if_neg h1] at h
      rw [pruneOld]
      by_cases hv : v < cutoff
      · rw [if_pos hv]; exact ih h
      · rw [if_neg hv, cacheGet, if_neg h1]; exact ih h

theorem cacheGet_pruneOld (cutoff : ℚ) (k : String) :
    ∀ c : NotificationCache, (c.map Prod.fst).Nodup → ∀ v, cacheGet c k = some v →
      cacheGet (pruneOld c cutoff) k = if v < cutoff then none else some v := by
  intro c
  induction c with
  | nil => intro _ v hv; cases hv
  | cons p c ih =>
    rcases p with ⟨k1, w⟩
    intro hnd v hv
    simp only [List.map_cons, List.nodup_cons] at hnd
    by_cases h1 : k = k1
    · rw [cacheGet, if_pos h1] at hv
      injection hv with hveq
      subst hveq
      rw [pruneOld]
      by_cases hw : w < cutoff
      · rw [if_pos hw, if_pos hw]
        refine cacheGet_pruneOld_none cutoff k c ?_
        refine cacheGet_eq_none_of_not_mem k c ?_
        rw [h1]
        exact hnd.1
      · rw [if_neg hw, if_neg hw, cacheGet, if_pos h1]
    · rw [cacheGet, if_neg h1] at hv
      rw [pruneOld]
      by_cases hw : w < cutoff
      · rw [if_pos hw]; exact ih hnd.2 v hv
      · rw [if_neg hw, cacheGet, if_neg h1]; exact ih hnd.2 v hv

theorem mem_pruneOld (cutoff : ℚ) (p : String × ℚ) :
    ∀ c : NotificationCache, p ∈ pruneOld c cutoff → p ∈ c := by
  intro c
  induction c with
  | nil => intro h; cases h
  | cons q c ih =>
    rcases q with ⟨k1, v⟩
    rw [pruneOld]
    by_cases hv : v < cutoff
    · rw [if_pos hv]
      intro h
      exact List.mem_cons_of_mem _ (ih h)
    · rw [if_neg hv]
      intro h
      rcases List.mem_cons.mp h with rfl | h2
      · exact List.mem_cons_self _ _
      · exact List.mem_cons_of_mem _ (ih h2)

theorem keys_pruneOld_subset (cutoff : ℚ) (k2 : String) (c : NotificationCache)
    (h : k2 ∈ (pruneOld c cutoff).map Prod.fst) : k2 ∈ c.map Prod.fst := by
  obtain ⟨p, hp, rfl⟩ := List.mem_map.mp h
  exact List.mem_map.mpr ⟨p, mem_pruneOld cutoff p c hp, rfl⟩

theorem nodup_keys_pruneOld (cutoff : ℚ) :
    ∀ c : NotificationCache, (c.map Prod.fst).Nodup →
      ((pruneOld c cutoff).map Prod.fst).Nodup := by
  intro c
  induction c with
  | nil => intro _; exact List.nodup_nil
  | cons q c ih =>
    rcases q with ⟨k1, v⟩
    intro hnd
    simp only [List.map_cons, List.nodup_cons] at hnd
    rw [pruneOld]
    by_cases hv : v < cutoff
    · rw [if_pos hv]; exact ih hnd.2
    · rw [if_neg hv]
      simp only [List.map_cons, List.nodup_cons]
      exact ⟨fun hm => hnd.1 (keys_pruneOld_subset cutoff k1 c hm), ih hnd.2⟩

theorem updateCache_nodup (c : NotificationCache) (d : NotificationData) (now : ℚ)
    (h : (c.map Prod.fst).Nodup) :
    ((updateRateLimitCache c d now).map Prod.fst).Nodup := by
  have h1 := nodup_keys_cacheSet c (dedupeKey d) now h
  rw [updateRateLimitCache]
  split
  · exact nodup_keys_pruneOld _ _ h1
  · exact h1

theorem updateCache_times (c : NotificationCache) (d : NotificationData) (now : ℚ)
    (h : ∀ p ∈ c, p.2 ≤ now) :
    ∀ p ∈ updateRateLimitCache c d now, p.2 ≤ now := by
  have hset : ∀ q ∈ cacheSet c (dedupeKey d) now, q.2 ≤ now := by
    intro q hq
    rw [cacheSet] at hq
    rcases List.mem_cons.mp hq with rfl | hq2
    · exact le_refl now
    · exact h q (mem_removeKey _ q c hq2)
  intro p hp
  rw [updateRateLimitCache] at hp
  split at hp
  · exact hset p (mem_pruneOld _ p _ hp)
  · exact hset p hp

theorem updateCache_get_self (c : NotificationCache) (d : NotificationData) (now : ℚ)
    (h : (c.map Prod.fst).Nodup) :
    cacheGet (updateRateLimitCache c d now) (dedupeKey d) = some now := by
  have hset : cacheGet (cacheSet c (dedupeKey d) now) (dedupeKey d) = some now := by
    rw [cacheSet, cacheGet, if_pos rfl]
  rw [updateRateLimitCache]
  split
  · rw [cacheGet_pruneOld _ _ _ (nodup_keys_cacheSet c _ now h) now hset,
      if_neg (by intro hlt; linarith)]
  · exact hset

theorem updateCache_get_other (c : NotificationCache) (d : NotificationData) (now : ℚ)
    (k : String) (hk : k ≠ dedupeKey d) (h : (c.map Prod.fst).Nodup) :
    cacheGet (updateRateLimitCache c d now) k = cacheGet c k ∨
    (cacheGet (updateRateLimitCache c d now) k = none ∧
      ∃ t0, cacheGet c k = some t0 ∧ t0 < now - 86400000) := by
  have hset : cacheGet (cacheSet c (dedupeKey d) now) k = cacheGet c k := by
    rw [cacheSet, cacheGet, if_neg hk]
    exact cacheGet_removeKey_other _ _ hk c
  rw [updateRateLimitCache]
  split
  · rcases hc : cacheGet c k with _ | t0
    · left
      exact cacheGet_pruneOld_none _ _ _ (hset.trans hc)
    · rw [cacheGet_pruneOld _ _ _ (nodup_keys_cacheSet c (dedupeKey d) now h) t0
        (hset.trans hc)]
      by_cases hlt : t0 < now - 86400000
      · right
        rw [if_pos hlt]
        exact ⟨rfl, t0, rfl, hlt⟩
      · left
        rw [if_neg hlt]
  · left
    exact hset

/-! ## Claim C9 -/

/-- Invariant carried along a notification trace, for a fixed dedupe key
`k`: cache keys are unique, every cached timestamp is at most the current
time `tprev`, and whenever `lastD` records the time `t0` of the last
delivered `k`-notification, `t0` is positive, not in the future, and the
cache either still holds exactly `(k, t0)` or has pruned it — which the
eviction loop only does once `t0` is more than 24 h in the past. -/
structure NotifInv (k : String) (lastD : Option ℚ) (tprev : ℚ)
    (cache : NotificationCache) : Prop where
  nodup : (cache.map Prod.fst).Nodup
  bounded : ∀ p ∈ cache, p.2 ≤ tprev
  lastSpec : ∀ t0, lastD = some t0 → 0 < t0 ∧ t0 ≤ tprev ∧
    (cacheGet cache k = some t0 ∨
      (cacheGet cache k = none ∧ t0 < tprev - 86400000))

theorem NotifInv.mono {k : String} {lastD : Option ℚ} {tprev t : ℚ}
    {cache : NotificationCache} (h : NotifInv k lastD tprev cache)
    (ht : tprev ≤ t) : NotifInv k lastD t cache := by
  refine ⟨h.nodup, fun p hp => le_trans (h.bounded p hp) ht, fun t0 ht0 => ?_⟩
  obtain ⟨ha, hb, hc⟩ := h.lastSpec t0 ht0
  refine ⟨ha, le_trans hb ht, ?_⟩
  rcases hc with hc | ⟨hc1, hc2⟩
  · exact Or.inl hc
  · exact Or.inr ⟨hc1, by linarith⟩

theorem NotifInv.update_other {k : String} {lastD : Option ℚ} {tprev t : ℚ}
    {cache : NotificationCache} {d : NotificationData}
    (h : NotifInv k lastD tprev cache) (ht : tprev ≤ t) (hk : k ≠ dedupeKey d) :
    NotifInv k lastD t (updateRateLimitCache cache d t) := by
  refine ⟨updateCache_nodup _ _ _ h.nodup,
    updateCache_times _ _ _ (fun p hp => le_trans (h.bounded p hp) ht),
    fun t0 ht0 => ?_⟩
  obtain ⟨ha, hb, hc⟩ := h.lastSpec t0 ht0
  refine ⟨ha, le_trans hb ht, ?_⟩
  rcases updateCache_get_other cache d t k hk h.nodup with hg | ⟨hg, t1, hgc, hlt⟩
  · rcases hc with hc | ⟨hc1, hc2⟩
    · exact Or.inl (hg.trans hc)
    · exact Or.inr ⟨hg.trans hc1, by linarith⟩
  · rcases hc with hc | ⟨hc1, hc2⟩
    · rw [hc] at hgc
      injection hgc with hgc
      refine Or.inr ⟨hg, ?_⟩
      rw [hgc]
      linarith
    · rw [hc1] at hgc
      cases hgc

theorem NotifInv.update_self {k : String} {lastD : Option ℚ} {tprev t : ℚ}
    {cache : NotificationCache} {d : NotificationData}
    (h : NotifInv k lastD tprev cache) (ht : tprev ≤ t) (h0 : 0 < t)
    (hk : dedupeKey d = k) :
    NotifInv k (some t) t (updateRateLimitCache cache d t) := by
  refine ⟨updateCache_nodup _ _ _ h.nodup,
    updateCache_times _ _ _ (fun p hp => le_trans (h.bounded p hp) ht),
    fun t0 ht0 => ?_⟩
  injection ht0 with ht0
  subst ht0
  refine ⟨h0, le_refl _, Or.inl ?_⟩
  rw [← hk]
  exact updateCache_get_self cache d _ h.nodup

theorem deliveredTimes_spaced (config : AdminNotificationConfig) (w : ℚ)
    (hw : config.rateLimitMinutes = some w) (hw0 : 0 < w)
    (hwday : w * 60 * 1000 ≤ 86400000) (k : String) :
    ∀ (evs : List (NotificationData × ℚ)) (cache : NotificationCache)
      (lastD : Option ℚ) (tprev : ℚ),
      (∀ p ∈ evs, tprev ≤ p.2 ∧ 0 < p.2) →
      (evs.map Prod.snd).Pairwise (· ≤ ·) →
      NotifInv k lastD tprev cache →
      (∀ t1 ∈ deliveredTimes config k cache evs,
        ∀ t0, lastD = some t0 → t0 + w * 60 * 1000 ≤ t1) ∧
      (deliveredTimes config k cache evs).Pairwise
        (fun a b => a + w * 60 * 1000 ≤ b) := by
  intro evs
  induction evs with
  | nil =>
    intro cache lastD tprev _ _ _
    rw [deliveredTimes]
    exact ⟨fun t1 ht1 => absurd ht1 (List.not_mem_nil t1), List.Pairwise.nil⟩
  | cons ev evs ih =>
    rcases ev with ⟨d, t⟩
    intro cache lastD tprev hb hpair hinv
    obtain ⟨htpt, ht0⟩ := hb (d, t) (List.mem_cons_self _ _)
    rw [List.map_cons] at hpair
    obtain ⟨hhead, htail⟩ := List.pairwise_cons.mp hpair
    have hbt : ∀ p ∈ evs, t ≤ p.2 ∧ 0 < p.2 := fun p hp =>
      ⟨hhead p.2 (List.mem_map.mpr ⟨p, hp, rfl⟩), (hb p (List.mem_cons_of_mem _ hp)).2⟩
    by_cases hsev : d.severity ∈ config.enabledSeverities
    · have hwne : w ≠ 0 := ne_of_gt hw0
      by_cases hrl : isRateLimited cache d t w = true
      · have hsend : sendAdminNotification d config t cache = (.rateLimited, cache) := by
          rw [sendAdminNotification, if_neg (not_not_intro hsev), hw]
          dsimp only
          rw [if_neg hwne, if_pos hrl]
        rw [deliveredTimes, hsend]
        dsimp only
        rw [List.nil_append]
        exact ih cache lastD t hbt htail (hinv.mono htpt)
      · have hsend : sendAdminNotification d config t cache =
            (.delivered config.channels, updateRateLimitCache cache d t) := by
          rw [sendAdminNotification, if_neg (not_not_intro hsev), hw]
          dsimp only
          rw [if_neg hwne, if_neg hrl]
        by_cases hkey : dedupeKey d = k
        · rw [deliveredTimes, hsend]
          dsimp only
          rw [if_pos hkey, List.singleton_append]
          have hinvs : NotifInv k (some t) t (updateRateLimitCache cache d t) :=
            hinv.update_self htpt ht0 hkey
          have hrec := ih (updateRateLimitCache cache d t) (some t) t hbt htail hinvs
          have hhead_space : ∀ t0, lastD = some t0 → t0 + w * 60 * 1000 ≤ t := by
            intro t0 hlast
            obtain ⟨hpos0, hle0, hc⟩ := hinv.lastSpec t0 hlast
            rcases hc with hc | ⟨hc1, hc2⟩
            · have hr : isRateLimited cache d t w =
                  decide (t - t0 < w * 60 * 1000) := by
                rw [isRateLimited, hkey, hc]
                dsimp only
                rw [if_neg (ne_of_gt hpos0)]
              rw [hr] at hrl
              simp only [decide_eq_true_eq] at hrl
              linarith
            · linarith
          constructor
          · intro t1 ht1 t0 hlast
            rcases List.mem_cons.mp ht1 with rfl | ht1m
            · exact hhead_space t0 hlast
            · have h1 := hrec.1 t1 ht1m t rfl
              have h2 := (hinv.lastSpec t0 hlast).2.1
              linarith
          · exact List.pairwise_cons.mpr
              ⟨fun t1 ht1 => hrec.1 t1 ht1 t rfl, hrec.2⟩
        · rw [deliveredTimes, hsend]
          dsimp only
          rw [if_neg hkey, List.nil_append]
          exact ih (updateRateLimitCache cache d t) lastD t hbt htail
            (hinv.update_other htpt (fun he => hkey he.symm))
    · have hsend : sendAdminNotification d config t cache = (.skipped, cache) := by
        rw [sendAdminNotification, if_pos hsev]
      rw [deliveredTimes, hsend]
      dsimp only
      rw [List.nil_append]
      exact ih cache lastD t hbt htail (hinv.mono htpt)

/-- C9: the escalation pipeline never fans out two notifications with the
same dedupe key within one rate-limit window.
(1) Per call: with a configured (nonzero) window `w`, an enabled severity and
a cache entry for the notification dedupe key sent less than `w` minutes
ago, `sendAdminNotification` suppresses the notification: result
`rateLimited`, no channel fan-out, cache unchanged (logged only).
(2) Per trace: under the repository configuration `DEFAULT_CONFIG`
(window 5 minutes), along any run from a fresh cache whose arrival
timestamps are positive and non-decreasing, any two deliveries sharing a
dedupe key are at least 5 minutes (300000 ms) apart. -/
theorem notification_rate_limit_dedupe :
    (∀ (config : AdminNotificationConfig) (w : ℚ) (d : NotificationData)
        (cache : NotificationCache) (now t0 : ℚ),
      config.rateLimitMinutes = some w → w ≠ 0 →
      d.severity ∈ config.enabledSeverities →
      cacheGet cache (dedupeKey d) = some t0 → t0 ≠ 0 →
      now - t0 < w * 60 * 1000 →
      sendAdminNotification d config now cache = (.rateLimited, cache)) ∧
    (∀ (evs : List (NotificationData × ℚ)) (k : String),
      (∀ p ∈ evs, 0 < p.2) → (evs.map Prod.snd).Pairwise (· ≤ ·) →
      (deliveredTimes ADMIN_DEFAULT_CONFIG k [] evs).Pairwise
        (fun a b => a + 5 * 60 * 1000 ≤ b)) := by
  constructor
  · intro config w d cache now t0 hw hwne hsev hget ht0 hlt
    have hr : isRateLimited cache d now w = true := by
      rw [isRateLimited, hget]
      dsimp only
      rw [if_neg ht0]
      exact decide_eq_true hlt
    rw [sendAdminNotification, if_neg (not_not_intro hsev), hw]
    dsimp only
    rw [if_neg hwne, if_pos hr]
  · intro evs k hpos hpair
    refine (deliveredTimes_spaced ADMIN_DEFAULT_CONFIG 5 rfl (by norm_num)
      (by norm_num) k evs [] none 0
      (fun p hp => ⟨le_of_lt (hpos p hp), hpos p hp⟩) hpair
      ⟨List.nodup_nil, fun p hp => absurd hp (List.not_mem_nil p),
        fun t0 ht0 => by cases ht0⟩).2

/-- The notification issued on payment failures
(`notifyPaymentFailure`: severity high, operation `payment_processing`,
error type `payment_failure`). -/
def rlData : NotificationData :=
  { severity := .high, operation := "payment_processing", errorType := "payment_failure" }

/-- C9 witness: under the default configuration, a payment-failure
notification arriving 1000 ms after an identical one was delivered is
suppressed with the cache unchanged, and a two-event trace of identical
notifications yields 5-minute-spaced delivery times. -/
theorem notification_rate_limit_dedupe_witness :
    sendAdminNotification rlData ADMIN_DEFAULT_CONFIG 2000
        [(dedupeKey rlData, 1000)] = (.rateLimited, [(dedupeKey rlData, 1000)]) ∧
    (deliveredTimes ADMIN_DEFAULT_CONFIG (dedupeKey rlData) []
        [(rlData, 1000), (rlData, 2000)]).Pairwise
      (fun a b => a + 5 * 60 * 1000 ≤ b) := by
  constructor
  · exact notification_rate_limit_dedupe.1 ADMIN_DEFAULT_CONFIG 5 rlData
      [(dedupeKey rlData, 1000)] 2000 1000 rfl (by norm_num)
      (by simp [ADMIN_DEFAULT_CONFIG, rlData]) rfl (by norm_num) (by norm_num)
  · exact notification_rate_limit_dedupe.2 [(rlData, 1000), (rlData, 2000)]
      (dedupeKey rlData) (by decide) (by decide)
